import Mathlib

/-!
Verification development for the team-table coordination store
(`src/team_table/db.py` and `src/team_table/validation.py`).

The SQLite-backed access layer is shallowly embedded: each table is a Lean
list of records, each access-layer method is a Lean function taking the
store state (plus the wall-clock reading that the Python code obtains from
`datetime.now`) and returning the method's Python result together with the
successor state.  ISO-8601 timestamp strings, which SQLite compares
lexicographically and which the code generates from a monotone clock, are
modelled as natural numbers; the in-memory rate limiter's
`time.monotonic()` floats are modelled as integers.  Python exceptions
(`ValidationError`), `None` results, structured `error` dictionaries and
ordinary return values are kept apart by an explicit result type.
Exact interpolated message texts are abbreviated; their structure
(which branch raises or returns which kind of outcome) is preserved.
-/

namespace TeamTable

/-! ## Validation (`validation.py`) -/

def MAX_AGENT_NAME_LENGTH : Nat := 64
def MAX_MESSAGE_CONTENT_LENGTH : Nat := 10000
def MAX_TASK_TITLE_LENGTH : Nat := 200
def MAX_TASK_DESCRIPTION_LENGTH : Nat := 5000
def MAX_TASK_RESULT_LENGTH : Nat := 5000
def MAX_CONTEXT_KEY_LENGTH : Nat := 128
def MAX_CONTEXT_VALUE_LENGTH : Nat := 50000
def MAX_CAPABILITIES_COUNT : Nat := 20
def MAX_CAPABILITY_LENGTH : Nat := 64

def VALID_PRIORITIES : List String := ["low", "medium", "high"]
def VALID_TASK_STATUSES : List String := ["pending", "in_progress", "done", "blocked"]
def VALID_ROLES : List String :=
  ["agent", "admin", "lead", "coder", "reviewer", "designer", "tester"]

def isAlnumChar (c : Char) : Bool := c.isAlpha || c.isDigit

def isNameMiddleChar (c : Char) : Bool :=
  isAlnumChar c || c == ' ' || c == '_' || c == '.' || c == '-'

/-- The agent-name regular expression of `validation.py`: either a single
alphanumeric character, or an alphanumeric first character, up to 62
characters from the middle class, and an alphanumeric last character. -/
def agentNameMatches : List Char → Bool
  | [] => false
  | [c] => isAlnumChar c
  | c :: rest =>
    isAlnumChar c && rest.length ≤ 63 &&
      (match rest.getLast? with
       | some lastc => isAlnumChar lastc && rest.dropLast.all isNameMiddleChar
       | none => false)

/-- `validate_agent_name`: nonempty, not all whitespace, length cap, regex. -/
def validAgentName (name : String) : Bool :=
  let cs := name.data
  !cs.isEmpty && cs.any (fun c => !c.isWhitespace) &&
    cs.length ≤ MAX_AGENT_NAME_LENGTH && agentNameMatches cs

/-- `validate_message_content`: nonempty, not all whitespace, length cap. -/
def validMessageContent (content : String) : Bool :=
  let cs := content.data
  !cs.isEmpty && cs.any (fun c => !c.isWhitespace) &&
    cs.length ≤ MAX_MESSAGE_CONTENT_LENGTH

def validTaskTitle (title : String) : Bool :=
  let cs := title.data
  !cs.isEmpty && cs.any (fun c => !c.isWhitespace) &&
    cs.length ≤ MAX_TASK_TITLE_LENGTH

def validTaskDescription (d : String) : Bool := d.length ≤ MAX_TASK_DESCRIPTION_LENGTH

def validTaskResult (r : String) : Bool := r.length ≤ MAX_TASK_RESULT_LENGTH

def validPriority (p : String) : Bool := VALID_PRIORITIES.contains p

def validTaskStatus (s : String) : Bool := VALID_TASK_STATUSES.contains s

def validRole (r : String) : Bool := VALID_ROLES.contains r

def validCapabilities (caps : List String) : Bool :=
  caps.length ≤ MAX_CAPABILITIES_COUNT &&
    caps.all (fun c => c.length ≤ MAX_CAPABILITY_LENGTH)

def validContextKey (k : String) : Bool :=
  let cs := k.data
  !cs.isEmpty && cs.any (fun c => !c.isWhitespace) &&
    cs.length ≤ MAX_CONTEXT_KEY_LENGTH

def validContextValue (v : String) : Bool := v.length ≤ MAX_CONTEXT_VALUE_LENGTH

/-! ## Rate limiting (`db.py`, module level and `Database._check_rate_limit`)

The bucket dictionary `sender -> list of monotonic timestamps` is an
association list; `time.monotonic()` readings are integers. -/

def RATE_LIMIT_WINDOW : Int := 60
def RATE_LIMIT_MAX_MESSAGES : Nat := 30

abbrev RateBuckets := List (String × List Int)

/-- `_rate_buckets.get(sender, [])`. -/
def bucketsGet (rb : RateBuckets) (sender : String) : List Int :=
  ((rb.find? (fun p => p.1 == sender)).map (fun p => p.2)).getD []

/-- `_rate_buckets[sender] = ts`: replace the entry if the key is present,
otherwise add it. -/
def bucketsSet (rb : RateBuckets) (sender : String) (ts : List Int) : RateBuckets :=
  if rb.any (fun p => p.1 == sender) then
    rb.map (fun p => if p.1 == sender then (sender, ts) else p)
  else rb ++ [(sender, ts)]

/-- The pruning step of `_check_rate_limit`: keep timestamps strictly newer
than `now - RATE_LIMIT_WINDOW`. -/
def pruneBucket (ts : List Int) (now : Int) : List Int :=
  ts.filter (fun t => now - RATE_LIMIT_WINDOW < t)

/-- `Database._check_rate_limit`.  On rejection the code raises before the
bucket assignment runs, so the caller's buckets are unchanged; this is
modelled by the error branch carrying no successor state. -/
def checkRateLimit (rb : RateBuckets) (sender : String) (now : Int) :
    Except String RateBuckets :=
  let timestamps := bucketsGet rb sender
  let pruned := pruneBucket timestamps now
  if RATE_LIMIT_MAX_MESSAGES ≤ pruned.length then
    Except.error "Rate limit exceeded: max 30 messages per 60s. Try again later."
  else
    Except.ok (bucketsSet rb sender (pruned ++ [now]))

/-- `Database.reset_rate_limits`: `_rate_buckets.clear()`. -/
def resetRateLimits : RateBuckets := []

/-! ## The store (schema of `db.py`) -/

structure Member where
  name : String
  role : String
  capabilities : List String
  status : String
  registered_at : Nat
  last_heartbeat : Nat
deriving Repr, DecidableEq

structure Message where
  id : Nat
  sender : String
  recipient : String
  content : String
  created_at : Nat
  read : Bool
  archived_at : Option Nat
deriving Repr, DecidableEq

structure Task where
  id : Nat
  title : String
  description : String
  status : String
  priority : String
  creator : String
  assignee : Option String
  result : Option String
  created_at : Nat
  updated_at : Nat
deriving Repr, DecidableEq

structure BroadcastRead where
  agent_name : String
  message_id : Nat
deriving Repr, DecidableEq

structure ContextEntry where
  key : String
  value : String
  set_by : String
  updated_at : Nat
deriving Repr, DecidableEq

structure AuditEntry where
  id : Nat
  timestamp : Nat
  agent_name : String
  action : String
  target_type : Option String
  target_id : Option String
  details : String
deriving Repr, DecidableEq

structure DBState where
  members : List Member
  messages : List Message
  tasks : List Task
  broadcast_reads : List BroadcastRead
  shared_context : List ContextEntry
  audit_log : List AuditEntry
  next_message_id : Nat
  next_task_id : Nat
  next_audit_id : Nat
deriving Repr, DecidableEq

def initialState : DBState :=
  { members := [], messages := [], tasks := [], broadcast_reads := [],
    shared_context := [], audit_log := [],
    next_message_id := 1, next_task_id := 1, next_audit_id := 1 }

/-- Python results: a raised exception, a `None` return, a structured
single-key error dictionary, or an ordinary value. -/
inductive PyResult (α : Type) where
  | raised (msg : String)
  | pyNone
  | errorDict (msg : String)
  | ok (v : α)
deriving Repr, DecidableEq

/-! ## Audit logging (`Database.log_action`) -/

/-- `log_action`: insert one row into `audit_log`; the caller's transaction
commits it. -/
def log_action (s : DBState) (agent_name action : String)
    (target_type target_id : Option String) (details : String) (now : Nat) :
    DBState :=
  { s with
    audit_log := s.audit_log ++
      [{ id := s.next_audit_id, timestamp := now, agent_name := agent_name,
         action := action, target_type := target_type, target_id := target_id,
         details := details }],
    next_audit_id := s.next_audit_id + 1 }

/-! ## Registration (`register`, `deregister`, `heartbeat`, `get_member_role`) -/

/-- `register`: validate, then upsert via `ON CONFLICT(name) DO UPDATE`
(role, capabilities, status and heartbeat refreshed; `registered_at` kept),
audit, commit. -/
def register (s : DBState) (name role : String) (capabilities : List String)
    (now : Nat) : PyResult Member × DBState :=
  if !validAgentName name then (.raised "invalid agent name", s)
  else if !validRole role then (.raised "invalid role", s)
  else if !validCapabilities capabilities then (.raised "invalid capabilities", s)
  else
    let members' :=
      if s.members.any (fun m => m.name == name) then
        s.members.map (fun m =>
          if m.name == name then
            { m with role := role, capabilities := capabilities,
                     status := "active", last_heartbeat := now }
          else m)
      else
        s.members ++
          [{ name := name, role := role, capabilities := capabilities,
             status := "active", registered_at := now, last_heartbeat := now }]
    let s' := log_action { s with members := members' } name "register"
      (some "member") (some name) "role" now
    (.ok { name := name, role := role, capabilities := capabilities,
           status := "active", registered_at := now, last_heartbeat := now }, s')

/-- `deregister`: set `status` to inactive where the name matches; audit only
when the update matched a row. -/
def deregister (s : DBState) (name : String) (now : Nat) : Bool × DBState :=
  let affected := s.members.countP (fun m => m.name == name)
  let members' := s.members.map (fun m =>
    if m.name == name then { m with status := "inactive" } else m)
  let s' := { s with members := members' }
  let s'' :=
    if 0 < affected then
      log_action s' name "deregister" (some "member") (some name) "" now
    else s'
  (0 < affected, s'')

/-- `heartbeat`: refresh `last_heartbeat` of an active member; returns
whether a row matched.  No audit entry is written. -/
def heartbeat (s : DBState) (name : String) (now : Nat) : Bool × DBState :=
  let affected := s.members.countP (fun m => m.name == name && m.status == "active")
  let members' := s.members.map (fun m =>
    if m.name == name && m.status == "active" then { m with last_heartbeat := now }
    else m)
  (0 < affected, { s with members := members' })

/-- `get_member_role`: role of a registered active agent, else `none`. -/
def get_member_role (s : DBState) (agent_name : String) : Option String :=
  (s.members.find? (fun m => m.name == agent_name && m.status == "active")).map
    (fun m => m.role)

/-! ## Messaging (`db.py`) -/

/-- Insertion step of a stable-enough sort by ascending `created_at`,
modelling `ORDER BY created_at` (ties broken consistently). -/
def insertAscCreated (m : Message) : List Message → List Message
  | [] => [m]
  | x :: xs =>
    if x.created_at ≤ m.created_at then x :: insertAscCreated m xs
    else m :: x :: xs

def sortAscCreated : List Message → List Message
  | [] => []
  | x :: xs => insertAscCreated x (sortAscCreated xs)

/-- Insertion step of a sort by descending `created_at`, modelling
`ORDER BY created_at DESC`. -/
def insertDescCreated (m : Message) : List Message → List Message
  | [] => [m]
  | x :: xs =>
    if m.created_at ≤ x.created_at then x :: insertDescCreated m xs
    else m :: x :: xs

def sortDescCreated : List Message → List Message
  | [] => []
  | x :: xs => insertDescCreated x (sortDescCreated xs)

/-- The WHERE clause of the `unread_count` query. -/
def unreadCountWhere (brs : List BroadcastRead) (agent : String) (m : Message) : Bool :=
  (m.recipient == agent || m.recipient == "*") && !m.read &&
    m.archived_at == none &&
    !(brs.any (fun br => br.message_id == m.id && br.agent_name == agent))

/-- The WHERE clause of the `unread_preview` query. -/
def unreadPreviewWhere (brs : List BroadcastRead) (agent : String) (m : Message) : Bool :=
  (m.recipient == agent || m.recipient == "*") && !m.read &&
    m.archived_at == none &&
    !(brs.any (fun br => br.message_id == m.id && br.agent_name == agent))

/-- `unread_count`: a single SELECT COUNT; the store is not written, so the
successor state is the input state. -/
def unread_count (s : DBState) (agent_name : String) : Nat × DBState :=
  ((s.messages.filter (unreadCountWhere s.broadcast_reads agent_name)).length, s)

structure PreviewRow where
  sender : String
  content : String
  created_at : Nat
deriving Repr, DecidableEq

/-- `unread_preview`: a single SELECT with `ORDER BY created_at DESC LIMIT`,
projecting sender, the first 100 characters of the content, and the
creation time; the store is not written. -/
def unread_preview (s : DBState) (agent_name : String) (limit : Nat) :
    List PreviewRow × DBState :=
  (((sortDescCreated
        (s.messages.filter (unreadPreviewWhere s.broadcast_reads agent_name))).take
      limit).map
    (fun r => { sender := r.sender, content := r.content.take 100,
                created_at := r.created_at }),
   s)

/-- `send_message`: validate sender, recipient (unless the wildcard) and
content, enforce the rate limiter for the sender, insert the row with
`read=0` and `archived_at` null, audit, commit.  A rate-limit rejection
raises, leaving both the store and the buckets unchanged. -/
def send_message (s : DBState) (rb : RateBuckets)
    (sender recipient content : String) (now : Nat) (mono : Int) :
    PyResult Message × DBState × RateBuckets :=
  if !validAgentName sender then (.raised "invalid sender name", s, rb)
  else if recipient != "*" && !validAgentName recipient then
    (.raised "invalid recipient name", s, rb)
  else if !validMessageContent content then (.raised "invalid content", s, rb)
  else
    match checkRateLimit rb sender mono with
    | .error msg => (.raised msg, s, rb)
    | .ok rb' =>
      let msg : Message :=
        { id := s.next_message_id, sender := sender, recipient := recipient,
          content := content, created_at := now, read := false, archived_at := none }
      let s' := { s with messages := s.messages ++ [msg],
                         next_message_id := s.next_message_id + 1 }
      let s'' := log_action s' sender "send_message" (some "message")
        (some (toString msg.id)) "recipient" now
      (.ok msg, s'', rb')

/-- `broadcast`: like `send_message` with the wildcard recipient. -/
def broadcast (s : DBState) (rb : RateBuckets) (sender content : String)
    (now : Nat) (mono : Int) : PyResult Message × DBState × RateBuckets :=
  if !validAgentName sender then (.raised "invalid sender name", s, rb)
  else if !validMessageContent content then (.raised "invalid content", s, rb)
  else
    match checkRateLimit rb sender mono with
    | .error msg => (.raised msg, s, rb)
    | .ok rb' =>
      let msg : Message :=
        { id := s.next_message_id, sender := sender, recipient := "*",
          content := content, created_at := now, read := false, archived_at := none }
      let s' := { s with messages := s.messages ++ [msg],
                         next_message_id := s.next_message_id + 1 }
      let s'' := log_action s' sender "broadcast" (some "message")
        (some (toString msg.id)) "" now
      (.ok msg, s'', rb')

structure DeleteRow where
  id : Nat
  sender : String
  recipient : String
  archived_at : Nat
deriving Repr, DecidableEq

/-- `delete_message`: soft-delete (set `archived_at`), gated by privilege,
wildcard recipient, or ownership. -/
def delete_message (s : DBState) (message_id : Nat) (agent_name : String)
    (now : Nat) : PyResult DeleteRow × DBState :=
  match s.messages.find? (fun m => m.id == message_id) with
  | none => (.pyNone, s)
  | some row =>
    let role := get_member_role s agent_name
    let is_privileged := role == some "admin" || role == some "lead"
    let is_broadcast := row.recipient == "*"
    let is_owner := row.sender == agent_name || row.recipient == agent_name
    if !is_privileged && !is_broadcast && !is_owner then
      (.errorDict "agent is not authorized to delete this message", s)
    else
      let messages' := s.messages.map (fun m =>
        if m.id == message_id then { m with archived_at := some now } else m)
      let s' := log_action { s with messages := messages' } agent_name
        "delete_message" (some "message") (some (toString message_id)) "" now
      (.ok { id := row.id, sender := row.sender, recipient := row.recipient,
             archived_at := now }, s')

structure ArchiveRow where
  id : Nat
  sender : String
  recipient : String
  archived_at : Nat
  read : Bool
deriving Repr, DecidableEq

/-- `INSERT OR IGNORE INTO broadcast_reads`: idempotent on the composite
primary key. -/
def brInsertIgnore (brs : List BroadcastRead) (agent : String) (mid : Nat) :
    List BroadcastRead :=
  if brs.any (fun br => br.agent_name == agent && br.message_id == mid) then brs
  else brs ++ [{ agent_name := agent, message_id := mid }]

/-- `archive_message`: soft-delete plus `read=1`; for a wildcard message
also insert the acting agent's `broadcast_reads` marker.  Same gate as
`delete_message`. -/
def archive_message (s : DBState) (message_id : Nat) (agent_name : String)
    (now : Nat) : PyResult ArchiveRow × DBState :=
  match s.messages.find? (fun m => m.id == message_id) with
  | none => (.pyNone, s)
  | some row =>
    let role := get_member_role s agent_name
    let is_privileged := role == some "admin" || role == some "lead"
    let is_broadcast := row.recipient == "*"
    let is_owner := row.sender == agent_name || row.recipient == agent_name
    if !is_privileged && !is_broadcast && !is_owner then
      (.errorDict "agent is not authorized to archive this message", s)
    else
      let messages' := s.messages.map (fun m =>
        if m.id == message_id then
          { m with archived_at := some now, read := true } else m)
      let brs' :=
        if row.recipient == "*" then brInsertIgnore s.broadcast_reads agent_name message_id
        else s.broadcast_reads
      let s' := log_action { s with messages := messages', broadcast_reads := brs' }
        agent_name "archive_message" (some "message") (some (toString message_id)) "" now
      (.ok { id := row.id, sender := row.sender, recipient := row.recipient,
             archived_at := now, read := true }, s')

/-- The WHERE clause of the `clear_inbox` bulk UPDATE, with the optional
conjunctive `created_at` and sender filters. -/
def clearInboxWhere (agent : String) (before_date : Option Nat)
    (sender : Option String) (m : Message) : Bool :=
  (m.recipient == agent || m.recipient == "*") && m.archived_at == none &&
    (match before_date with
     | some b => decide (m.created_at < b)
     | none => true) &&
    (match sender with
     | some sd => m.sender == sd
     | none => true)

/-- `clear_inbox`: bulk soft-delete (`archived_at` set, `read=1`) of the
matching rows; returns the number archived. -/
def clear_inbox (s : DBState) (agent_name : String) (before_date : Option Nat)
    (sender : Option String) (now : Nat) : Nat × DBState :=
  let cnt := s.messages.countP (clearInboxWhere agent_name before_date sender)
  let messages' := s.messages.map (fun m =>
    if clearInboxWhere agent_name before_date sender m then
      { m with archived_at := some now, read := true } else m)
  let s' := log_action { s with messages := messages' } agent_name "clear_inbox"
    (some "messages") none "archived_count" now
  (cnt, s')

/-- `purge_messages`: requires the acting agent to be an active admin or
lead; deletes the `broadcast_reads` rows of the messages older than the
date, then hard-deletes those messages. -/
def purge_messages (s : DBState) (agent_name : String) (before_date : Nat)
    (now : Nat) : PyResult Nat × DBState :=
  let role := get_member_role s agent_name
  if !(role == some "admin" || role == some "lead") then
    (.errorDict "agent does not have permission to purge messages", s)
  else
    let brs' := s.broadcast_reads.filter (fun br =>
      !(s.messages.any (fun m => m.id == br.message_id && decide (m.created_at < before_date))))
    let cnt := s.messages.countP (fun m => decide (m.created_at < before_date))
    let messages' := s.messages.filter (fun m => !decide (m.created_at < before_date))
    let s' := log_action { s with messages := messages', broadcast_reads := brs' }
      agent_name "purge_messages" (some "messages") none "purged_count" now
    (.ok cnt, s')

/-- The WHERE clause of the two `get_messages` SELECT branches: direct or
wildcard recipient, optionally restricted to unarchived rows, and in the
default branch to unread rows without a `broadcast_reads` marker. -/
def getMessagesWhere (brs : List BroadcastRead) (agent : String)
    (include_read include_archived : Bool) (m : Message) : Bool :=
  if include_read then
    (m.recipient == agent || m.recipient == "*") &&
      (include_archived || m.archived_at == none)
  else
    (m.recipient == agent || m.recipient == "*") && !m.read &&
      (include_archived || m.archived_at == none) &&
      !(brs.any (fun br => br.message_id == m.id && br.agent_name == agent))

/-- `get_messages`: select the rows (ordered by creation time ascending),
then mark the returned direct messages read and insert an idempotent
`broadcast_reads` marker for each returned wildcard message.  The returned
dictionaries carry the pre-update column values.  No audit entry is
written. -/
def get_messages (s : DBState) (agent_name : String)
    (include_read include_archived : Bool) : List Message × DBState :=
  let rows := sortAscCreated
    (s.messages.filter (getMessagesWhere s.broadcast_reads agent_name include_read include_archived))
  let msg_ids := (rows.filter (fun r => r.recipient != "*")).map (fun r => r.id)
  let messages' :=
    if msg_ids.isEmpty then s.messages
    else s.messages.map (fun m =>
      if msg_ids.contains m.id then { m with read := true } else m)
  let broadcast_ids := (rows.filter (fun r => r.recipient == "*")).map (fun r => r.id)
  let brs' := broadcast_ids.foldl (fun acc bid => brInsertIgnore acc agent_name bid)
    s.broadcast_reads
  (rows, { s with messages := messages', broadcast_reads := brs' })

/-! ## Tasks (`db.py`) -/

/-- `create_task`: validate, insert with status pending, audit, commit. -/
def create_task (s : DBState) (title creator description : String)
    (assignee : Option String) (priority : String) (now : Nat) :
    PyResult Task × DBState :=
  if !validTaskTitle title then (.raised "invalid title", s)
  else if !validTaskDescription description then (.raised "invalid description", s)
  else if !validPriority priority then (.raised "invalid priority", s)
  else if !validAgentName creator then (.raised "invalid creator name", s)
  else if (match assignee with
           | some a => !validAgentName a
           | none => false) then (.raised "invalid assignee name", s)
  else
    let t : Task :=
      { id := s.next_task_id, title := title, description := description,
        status := "pending", priority := priority, creator := creator,
        assignee := assignee, result := none, created_at := now, updated_at := now }
    let s' := { s with tasks := s.tasks ++ [t], next_task_id := s.next_task_id + 1 }
    let s'' := log_action s' creator "create_task" (some "task")
      (some (toString t.id)) "title, priority" now
    (.ok t, s'')

/-- Outcome of the read-and-check phase of `claim_task` (the SELECT and the
Python-side tests that precede the UPDATE). -/
inductive ClaimCheck where
  | notFound
  | notPending (current : String)
  | notAuthorized (assignee : String)
  | claimable
deriving Repr, DecidableEq

/-- The read-and-check phase of `claim_task`.  It runs outside the write
transaction: the SELECT observes the store, the tests run on the fetched
row. -/
def claim_check (s : DBState) (task_id : Nat) (agent_name : String) : ClaimCheck :=
  match s.tasks.find? (fun t => t.id == task_id) with
  | none => .notFound
  | some row =>
    if row.status != "pending" then .notPending row.status
    else
      match row.assignee with
      | some a =>
        if a != agent_name then
          let role := get_member_role s agent_name
          if role == some "admin" || role == some "lead" then .claimable
          else .notAuthorized a
        else .claimable
      | none => .claimable

/-- The write phase of `claim_task`: the UPDATE (whose WHERE clause tests
only the task id, not the status), the audit insert, the commit, and the
re-SELECT of the row.  Also returns the number of rows the UPDATE matched
(`cursor.rowcount`, which the code never inspects). -/
def claim_write (s : DBState) (task_id : Nat) (agent_name : String) (now : Nat) :
    DBState × Nat × Option Task :=
  let affected := s.tasks.countP (fun t => t.id == task_id)
  let tasks' := s.tasks.map (fun t =>
    if t.id == task_id then
      { t with assignee := some agent_name, status := "in_progress", updated_at := now }
    else t)
  let s' := log_action { s with tasks := tasks' } agent_name "claim_task"
    (some "task") (some (toString task_id)) "" now
  (s', affected, s'.tasks.find? (fun t => t.id == task_id))

/-- `claim_task` as executed by a single caller: the check phase followed
immediately by the write phase. -/
def claim_task (s : DBState) (task_id : Nat) (agent_name : String) (now : Nat) :
    PyResult Task × DBState :=
  if !validAgentName agent_name then (.raised "invalid agent name", s)
  else
    match claim_check s task_id agent_name with
    | .notFound => (.pyNone, s)
    | .notPending current =>
      (.errorDict ("task is not in pending status, current: " ++ current), s)
    | .notAuthorized _ =>
      (.errorDict "task is assigned; only the assignee, admin, or lead can claim it", s)
    | .claimable =>
      let w := claim_write s task_id agent_name now
      match w.2.2 with
      | some r => (.ok r, w.1)
      | none => (.raised "TypeError", w.1)

/-- `update_task`: validate status and result, fetch the row, authorize
(creator, current assignee, or privileged role) only when an acting agent
was supplied, apply the UPDATE (result written only when supplied), audit,
commit, re-select. -/
def update_task (s : DBState) (task_id : Nat) (status : String)
    (result : Option String) (agent_name : Option String) (now : Nat) :
    PyResult Task × DBState :=
  if !validTaskStatus status then (.raised "invalid status", s)
  else if (match result with
           | some r => !validTaskResult r
           | none => false) then (.raised "invalid result", s)
  else
    match s.tasks.find? (fun t => t.id == task_id) with
    | none => (.pyNone, s)
    | some row =>
      let authorized :=
        match agent_name with
        | some a =>
          let is_creator := row.creator == a
          let is_assignee := row.assignee == some a
          let role := get_member_role s a
          let is_privileged := role == some "admin" || role == some "lead"
          is_creator || is_assignee || is_privileged
        | none => true
      if !authorized then
        (.errorDict "agent is not authorized to update this task", s)
      else
        let affected := s.tasks.countP (fun t => t.id == task_id)
        let tasks' := s.tasks.map (fun t =>
          if t.id == task_id then
            match result with
            | some r => { t with status := status, result := some r, updated_at := now }
            | none => { t with status := status, updated_at := now }
          else t)
        let s' := log_action { s with tasks := tasks' } (agent_name.getD "unknown")
          "update_task" (some "task") (some (toString task_id)) "status" now
        if affected == 0 then (.pyNone, s')
        else
          match s'.tasks.find? (fun t => t.id == task_id) with
          | some r => (.ok r, s')
          | none => (.raised "TypeError", s')

/-! ## Shared context (`db.py`) -/

/-- `share_context`: validate, upsert on the key, audit, commit. -/
def share_context (s : DBState) (key value set_by : String) (now : Nat) :
    PyResult ContextEntry × DBState :=
  if !validContextKey key then (.raised "invalid context key", s)
  else if !validContextValue value then (.raised "invalid context value", s)
  else if !validAgentName set_by then (.raised "invalid agent name", s)
  else
    let entry : ContextEntry := { key := key, value := value, set_by := set_by,
                                  updated_at := now }
    let ctx' :=
      if s.shared_context.any (fun e => e.key == key) then
        s.shared_context.map (fun e => if e.key == key then entry else e)
      else s.shared_context ++ [entry]
    let s' := log_action { s with shared_context := ctx' } set_by "share_context"
      (some "context") (some key) "" now
    (.ok entry, s')

/-! ## General helper lemmas -/

theorem find?_map_ite {α : Type} (p : α → Bool) (g : α → α) (l : List α)
    (hg : ∀ a, p a = true → p (g a) = true) :
    (l.map (fun a => if p a then g a else a)).find? p = (l.find? p).map g := by
  induction l with
  | nil => rfl
  | cons a as ih =>
    by_cases h : p a = true
    · simp [h, hg a h]
    · have h' : p a = false := by simpa using h
      simp [h', ih]

theorem map_key_map_ite {α β : Type} (k : α → β) (p : α → Bool) (g : α → α)
    (l : List α) (hg : ∀ a, k (g a) = k a) :
    (l.map (fun a => if p a then g a else a)).map k = l.map k := by
  induction l with
  | nil => rfl
  | cons a as ih =>
    by_cases h : p a = true
    · simp [h, hg a, ih]
    · have h' : p a = false := by simpa using h
      simp [h', ih]

theorem length_insertAscCreated (m : Message) (l : List Message) :
    (insertAscCreated m l).length = l.length + 1 := by
  induction l with
  | nil => rfl
  | cons x xs ih => by_cases h : x.created_at ≤ m.created_at <;> simp [insertAscCreated, h, ih]

theorem length_sortAscCreated (l : List Message) :
    (sortAscCreated l).length = l.length := by
  induction l with
  | nil => rfl
  | cons x xs ih => simp [sortAscCreated, length_insertAscCreated, ih]

theorem mem_insertAscCreated {m x : Message} {l : List Message} :
    x ∈ insertAscCreated m l ↔ x = m ∨ x ∈ l := by
  induction l with
  | nil => simp [insertAscCreated]
  | cons y ys ih =>
    by_cases h : y.created_at ≤ m.created_at
    · simp only [insertAscCreated, if_pos h, List.mem_cons, ih]
      try tauto
    · simp only [insertAscCreated, if_neg h, List.mem_cons]
      try tauto

theorem mem_sortAscCreated {x : Message} {l : List Message} :
    x ∈ sortAscCreated l ↔ x ∈ l := by
  induction l with
  | nil => simp [sortAscCreated]
  | cons y ys ih => simp [sortAscCreated, mem_insertAscCreated, ih]

/-! ## Claim C6: per-sender sliding-window rate limiting -/

theorem find?_cons_eq {α : Type} (p : α → Bool) (a : α) (l : List α) :
    (a :: l).find? p = if p a then some a else l.find? p := by
  by_cases hpa : p a = true
  · rw [List.find?_cons_of_pos _ hpa, if_pos hpa]
  · rw [List.find?_cons_of_neg _ hpa, if_neg hpa]

theorem find?_map_setEntry (rb : RateBuckets) (o s : String) (ts : List Int)
    (h : s ≠ o) :
    (rb.map (fun p => if p.1 == o then (o, ts) else p)).find? (fun p => p.1 == s)
      = rb.find? (fun p => p.1 == s) := by
  have hos : o ≠ s := fun e => h e.symm
  induction rb with
  | nil => rfl
  | cons q tail ih =>
    by_cases hq : q.1 = o
    · rw [List.map_cons,
          show (if (q.1 == o) = true then ((o, ts) : String × List Int) else q) = (o, ts)
            from by simp [hq],
          find?_cons_eq (fun p => p.1 == s) ((o, ts) : String × List Int) _,
          find?_cons_eq (fun p => p.1 == s) q _]
      have h1 : (((o, ts) : String × List Int).1 == s) = false := by simp [hos]
      have h2 : (q.1 == s) = false := by simp [hq, hos]
      rw [h1, h2]
      simp only [Bool.false_eq_true, if_false]
      exact ih
    · rw [List.map_cons,
          show (if (q.1 == o) = true then ((o, ts) : String × List Int) else q) = q
            from by simp [hq],
          find?_cons_eq (fun p => p.1 == s) q _,
          find?_cons_eq (fun p => p.1 == s) q _]
      by_cases hqs : q.1 = s
      · simp [hqs]
      · have h2 : (q.1 == s) = false := by simp [hqs]
        rw [h2]
        simp only [Bool.false_eq_true, if_false]
        exact ih

theorem bucketsGet_bucketsSet_ne (rb : RateBuckets) (o s : String) (ts : List Int)
    (h : s ≠ o) :
    bucketsGet (bucketsSet rb o ts) s = bucketsGet rb s := by
  unfold bucketsSet
  by_cases hany : rb.any (fun p => p.1 == o) = true
  · rw [if_pos hany]
    unfold bucketsGet
    rw [find?_map_setEntry rb o s ts h]
  · rw [if_neg hany]
    unfold bucketsGet
    rw [List.find?_append]
    have hone : ([(o, ts)].find? (fun p => p.1 == s)) = none := by
      have hos : o ≠ s := fun e => h e.symm
      rw [find?_cons_eq (fun p => p.1 == s) ((o, ts) : String × List Int) []]
      simp [hos]
    rw [hone]
    simp

/-- C6: on each send attempt the sender's bucket is pruned to the 60-second
window; at or above the 30-message cap the attempt is rejected without being
recorded (a rejected `send_message` leaves both the store and the buckets
unchanged), otherwise it is recorded and the send proceeds; a different
sender's successful attempt neither changes this sender's bucket nor the
decision, which depends only on this sender's own bucket; and after
`reset_rate_limits` any sender's next attempt is accepted. -/
theorem C6_rate_limit_window (rb : RateBuckets) (sender other : String)
    (now mono : Int) (s : DBState) (recipient content : String) (dnow : Nat) :
    (RATE_LIMIT_MAX_MESSAGES ≤ (pruneBucket (bucketsGet rb sender) now).length →
       ∃ msg, checkRateLimit rb sender now = .error msg) ∧
    (validAgentName sender = true →
     (recipient != "*" && !validAgentName recipient) = false →
     validMessageContent content = true →
     RATE_LIMIT_MAX_MESSAGES ≤ (pruneBucket (bucketsGet rb sender) mono).length →
       ∃ msg, send_message s rb sender recipient content dnow mono = (.raised msg, s, rb)) ∧
    ((pruneBucket (bucketsGet rb sender) now).length < RATE_LIMIT_MAX_MESSAGES →
       checkRateLimit rb sender now =
         .ok (bucketsSet rb sender (pruneBucket (bucketsGet rb sender) now ++ [now]))) ∧
    (∀ rb', sender ≠ other → checkRateLimit rb other now = .ok rb' →
       bucketsGet rb' sender = bucketsGet rb sender) ∧
    (∀ rb₁ rb₂ : RateBuckets, bucketsGet rb₁ sender = bucketsGet rb₂ sender →
       ((∃ m, checkRateLimit rb₁ sender mono = .error m) ↔
        (∃ m, checkRateLimit rb₂ sender mono = .error m))) ∧
    (∃ rb', checkRateLimit resetRateLimits sender now = .ok rb') := by
  refine ⟨?_, ?_, ?_, ?_, ?_, ?_⟩
  · intro h
    unfold checkRateLimit
    rw [if_pos h]
    exact ⟨_, rfl⟩
  · intro hs hr hc h
    unfold send_message
    simp only [hs, Bool.not_true, hr, hc, Bool.false_eq_true, if_false]
    unfold checkRateLimit
    rw [if_pos h]
    exact ⟨_, rfl⟩
  · intro h
    unfold checkRateLimit
    rw [if_neg (by omega)]
  · intro rb' hne hok
    unfold checkRateLimit at hok
    by_cases h : RATE_LIMIT_MAX_MESSAGES ≤ (pruneBucket (bucketsGet rb other) now).length
    · rw [if_pos h] at hok; exact absurd hok (by simp)
    · rw [if_neg h] at hok
      have : rb' = bucketsSet rb other (pruneBucket (bucketsGet rb other) now ++ [now]) := by
        injection hok with h'; exact h'.symm
      rw [this]
      exact bucketsGet_bucketsSet_ne rb other sender _ hne
  · intro rb₁ rb₂ hEq
    have hcond :
        (RATE_LIMIT_MAX_MESSAGES ≤ (pruneBucket (bucketsGet rb₁ sender) mono).length) ↔
        (RATE_LIMIT_MAX_MESSAGES ≤ (pruneBucket (bucketsGet rb₂ sender) mono).length) := by
      rw [hEq]
    unfold checkRateLimit
    by_cases h : RATE_LIMIT_MAX_MESSAGES ≤ (pruneBucket (bucketsGet rb₂ sender) mono).length
    · rw [if_pos h, if_pos (hcond.mpr h)]
    · rw [if_neg h, if_neg (fun hh => h (hcond.mp hh))]
      simp
  · unfold checkRateLimit resetRateLimits bucketsGet pruneBucket
    simp [RATE_LIMIT_MAX_MESSAGES]

/-- Witness for C6 at concrete inputs: a bucket holding 30 in-window
timestamps is rejected, and a fresh sender on the reset buckets is
accepted. -/
theorem C6_rate_limit_window_witness :
    (∃ msg, checkRateLimit [("a", List.replicate 30 (0 : Int))] "a" 30 = .error msg) ∧
    (∃ rb', checkRateLimit resetRateLimits "a" 30 = .ok rb') := by
  refine ⟨?_, ?_⟩
  · exact (C6_rate_limit_window [("a", List.replicate 30 (0 : Int))] "a" "b" 30 30
      initialState "b" "hi" 0).1 (by decide)
  · exact (C6_rate_limit_window [("a", List.replicate 30 (0 : Int))] "a" "b" 30 30
      initialState "b" "hi" 0).2.2.2.2.2

/-! ## Claim C7: at most one member row per name; re-registration reactivates -/

/-- A call to the registration sub-interface. -/
inductive RegCall where
  | reg (name role : String) (caps : List String) (now : Nat)
  | dereg (name : String) (now : Nat)
deriving Repr, DecidableEq

def applyRegCall (s : DBState) : RegCall → DBState
  | .reg n r c now => (register s n r c now).2
  | .dereg n now => (deregister s n now).2

def applyRegCalls (s : DBState) (cs : List RegCall) : DBState :=
  cs.foldl applyRegCall s

def memberNames (s : DBState) : List String := s.members.map (fun m => m.name)

theorem countP_name_eq (l : List Member) (n : String) :
    l.countP (fun m => m.name == n) = (l.map (fun m => m.name)).countP (fun x => x == n) := by
  simp only [List.countP_map]
  rfl

theorem countP_le_one_of_nodup_names (l : List Member)
    (hl : (l.map (fun m => m.name)).Nodup) (n : String) :
    l.countP (fun m => m.name == n) ≤ 1 := by
  induction l with
  | nil => simp
  | cons m ms ih =>
    simp only [List.map_cons, List.nodup_cons] at hl
    obtain ⟨hnotin, hnodup⟩ := hl
    by_cases hm : m.name = n
    · have hz : ms.countP (fun x => x.name == n) = 0 := by
        rw [List.countP_eq_zero]
        intro x hx
        simp only [beq_iff_eq]
        intro hxn
        exact hnotin (by rw [hm, ← hxn]; exact List.mem_map_of_mem _ hx)
      simp [List.countP_cons, hm, hz]
    · simp only [List.countP_cons, beq_iff_eq, hm, if_false]
      simpa using ih hnodup

theorem deregister_members (s : DBState) (name : String) (now : Nat) :
    (deregister s name now).2.members
      = s.members.map (fun m => if m.name == name then { m with status := "inactive" } else m) := by
  unfold deregister
  by_cases h : 0 < s.members.countP (fun m => m.name == name) <;> simp [h, log_action]

theorem nodup_after_deregister (s : DBState) (name : String) (now : Nat)
    (h : (memberNames s).Nodup) :
    (memberNames (deregister s name now).2).Nodup := by
  unfold memberNames
  rw [deregister_members]
  rw [map_key_map_ite (fun m => m.name) (fun m => m.name == name)
        (fun m => { m with status := "inactive" }) s.members (fun a => rfl)]
  exact h

theorem nodup_after_register (s : DBState) (name role : String) (caps : List String)
    (now : Nat) (h : (memberNames s).Nodup) :
    (memberNames (register s name role caps now).2).Nodup := by
  unfold register
  by_cases h1 : validAgentName name = true
  case neg =>
    have h1' : validAgentName name = false := by simpa using h1
    simpa [h1'] using h
  by_cases h2 : validRole role = true
  case neg =>
    have h2' : validRole role = false := by simpa using h2
    simpa [h1, h2'] using h
  by_cases h3 : validCapabilities caps = true
  case neg =>
    have h3' : validCapabilities caps = false := by simpa using h3
    simpa [h1, h2, h3'] using h
  simp only [h1, h2, h3, Bool.not_true, Bool.false_eq_true, if_false]
  by_cases hany : s.members.any (fun m => m.name == name) = true
  · simp only [hany, if_true]
    unfold memberNames log_action
    simp only []
    rw [map_key_map_ite (fun m => m.name) (fun m => m.name == name)
          (fun m => { m with role := role, capabilities := caps,
                             status := "active", last_heartbeat := now })
          s.members (fun a => rfl)]
    exact h
  · have hany' : s.members.any (fun m => m.name == name) = false := by simpa using hany
    simp only [hany', Bool.false_eq_true, if_false]
    unfold memberNames log_action
    simp only [List.map_append, List.map_cons, List.map_nil]
    rw [List.nodup_append]
    refine ⟨h, List.nodup_singleton _, ?_⟩
    intro x hx hx1
    simp only [List.mem_singleton] at hx1
    subst hx1
    simp only [List.mem_map] at hx
    obtain ⟨m, hm, hmn⟩ := hx
    have := List.any_eq_false.mp hany' m hm
    simp only [beq_iff_eq] at this
    exact this hmn

theorem nodup_applyRegCalls (cs : List RegCall) (s : DBState)
    (hs : (memberNames s).Nodup) :
    (memberNames (applyRegCalls s cs)).Nodup := by
  induction cs generalizing s with
  | nil => simpa [applyRegCalls] using hs
  | cons c rest ih =>
    have h1 : (memberNames (applyRegCall s c)).Nodup := by
      cases c with
      | reg n r cp t => exact nodup_after_register s n r cp t hs
      | dereg n t => exact nodup_after_deregister s n t hs
    simpa [applyRegCalls, List.foldl_cons] using ih (applyRegCall s c) h1

/-- C7: starting from a store whose member names are pairwise distinct (in
particular from the empty store), any sequence of register and deregister
calls leaves at most one member row per name; and registering a name that
already has a row keeps the row count, leaves exactly one row for the name,
and sets that row's status to active (reactivation, not duplication). -/
theorem C7_member_name_unique (s : DBState) (cs : List RegCall)
    (name role : String) (caps : List String) (now : Nat)
    (hs : (memberNames s).Nodup) :
    ((memberNames (applyRegCalls s cs)).Nodup ∧
     ∀ n, (applyRegCalls s cs).members.countP (fun m => m.name == n) ≤ 1) ∧
    (s.members.any (fun m => m.name == name) = true →
     validAgentName name = true → validRole role = true →
     validCapabilities caps = true →
       (register s name role caps now).2.members.length = s.members.length ∧
       (register s name role caps now).2.members.countP (fun m => m.name == name) = 1 ∧
       ((register s name role caps now).2.members.find? (fun m => m.name == name)).map
           (fun m => m.status) = some "active") := by
  constructor
  · have hn := nodup_applyRegCalls cs s hs
    exact ⟨hn, fun n => countP_le_one_of_nodup_names _ hn n⟩
  · intro hany h1 h2 h3
    have hmem : (register s name role caps now).2.members
        = s.members.map (fun m =>
            if m.name == name then
              { m with role := role, capabilities := caps,
                       status := "active", last_heartbeat := now }
            else m) := by
      unfold register
      simp [h1, h2, h3, hany, log_action]
    refine ⟨?_, ?_, ?_⟩
    · rw [hmem]; simp
    · rw [hmem]
      have hnames : (s.members.map (fun m =>
          if m.name == name then
            { m with role := role, capabilities := caps,
                     status := "active", last_heartbeat := now }
          else m)).map (fun m => m.name) = s.members.map (fun m => m.name) :=
        map_key_map_ite (fun m => m.name) (fun m => m.name == name)
          (fun m => { m with role := role, capabilities := caps,
                             status := "active", last_heartbeat := now })
          s.members (fun a => rfl)
      rw [countP_name_eq, hnames, ← countP_name_eq]
      have hle := countP_le_one_of_nodup_names s.members hs name
      have hpos : 0 < s.members.countP (fun m => m.name == name) := by
        rw [List.countP_pos_iff]
        obtain ⟨m, hm, hmn⟩ := List.any_eq_true.mp hany
        exact ⟨m, hm, hmn⟩
      omega
    · rw [hmem]
      rw [find?_map_ite (fun m => m.name == name) _ s.members
            (fun a ha => by simpa using ha)]
      have hpos : ∃ m ∈ s.members, (fun m => m.name == name) m = true := by
        obtain ⟨m, hm, hmn⟩ := List.any_eq_true.mp hany
        exact ⟨m, hm, hmn⟩
      obtain ⟨m0, hm0⟩ := Option.isSome_iff_exists.mp
        (List.find?_isSome.mpr hpos)
      rw [hm0]
      rfl

def aliceRow : Member :=
  { name := "alice", role := "agent", capabilities := [], status := "active",
    registered_at := 0, last_heartbeat := 0 }

def bobRow : Member :=
  { name := "bob", role := "agent", capabilities := [], status := "active",
    registered_at := 0, last_heartbeat := 0 }

def adminRow : Member :=
  { name := "root", role := "admin", capabilities := [], status := "active",
    registered_at := 0, last_heartbeat := 0 }

def oneMemberState : DBState := { initialState with members := [aliceRow] }

/-- Witness for C7: re-registering the already-registered name alice keeps
one row, with status active. -/
theorem C7_member_name_unique_witness :
    (register oneMemberState "alice" "coder" [] 6).2.members.length
        = oneMemberState.members.length ∧
    (register oneMemberState "alice" "coder" [] 6).2.members.countP
        (fun m => m.name == "alice") = 1 ∧
    ((register oneMemberState "alice" "coder" [] 6).2.members.find?
        (fun m => m.name == "alice")).map (fun m => m.status) = some "active" :=
  (C7_member_name_unique oneMemberState [] "alice" "coder" [] 6 (by decide)).2
    (by decide) (by decide) (by decide) (by decide)

/-! ## Claims C1 and C2: task claiming -/

/-- Projection of a claim result onto success status and assignee. -/
def resultStatusAssignee : PyResult Task → Option (String × Option String)
  | .ok t => some (t.status, t.assignee)
  | _ => none

def raceTask : Task :=
  { id := 1, title := "Write tests", description := "", status := "pending",
    priority := "medium", creator := "carol", assignee := none, result := none,
    created_at := 0, updated_at := 0 }

def raceState : DBState :=
  { initialState with members := [aliceRow, bobRow], tasks := [raceTask],
                      next_task_id := 2 }

/-- C1: the claim race on one pending task.  Under the interleaving
alice-SELECT, bob-SELECT, alice-UPDATE-commit, bob-UPDATE-commit (the SELECT
of `claim_task` runs outside the write transaction, so this schedule is
admissible), BOTH claims return success, each reporting itself the assignee
in an in-progress task, and the second (losing) UPDATE matches 1 row, not 0:
the UPDATE's WHERE clause tests only the task id, so the pending-status
precondition is not re-checked at update time and the affected-row count is
never consulted.  This refutes the claimed strict first-committer-wins
outcome. -/
theorem C1_concurrent_claim_race :
    resultStatusAssignee (claim_task raceState 1 "alice" 10).1
        = some ("in_progress", some "alice") ∧
    claim_check raceState 1 "bob" = .claimable ∧
    (claim_write (claim_task raceState 1 "alice" 10).2 1 "bob" 11).2.1 = 1 ∧
    ((claim_write (claim_task raceState 1 "alice" 10).2 1 "bob" 11).2.2).map
        (fun t => (t.status, t.assignee)) = some ("in_progress", some "bob") := by
  decide

/-- C2: the four sequential outcomes of `claim_task` (for a valid acting
agent name): absent task id gives the silent `None`; a non-pending task
gives a structured error with the store unchanged; a pre-set different
assignee with a non-privileged acting agent gives a structured error with
the store unchanged; otherwise the claim succeeds, returning and storing
the task with status in_progress and the acting agent as assignee. -/
theorem C2_claim_task_outcomes (s : DBState) (tid : Nat) (agent : String)
    (now : Nat) (hv : validAgentName agent = true) :
    (s.tasks.find? (fun t => t.id == tid) = none →
       claim_task s tid agent now = (.pyNone, s)) ∧
    (∀ row, s.tasks.find? (fun t => t.id == tid) = some row →
       row.status ≠ "pending" →
       ∃ msg, claim_task s tid agent now = (.errorDict msg, s)) ∧
    (∀ row a, s.tasks.find? (fun t => t.id == tid) = some row →
       row.status = "pending" → row.assignee = some a → a ≠ agent →
       get_member_role s agent ≠ some "admin" →
       get_member_role s agent ≠ some "lead" →
       ∃ msg, claim_task s tid agent now = (.errorDict msg, s)) ∧
    (∀ row, s.tasks.find? (fun t => t.id == tid) = some row →
       row.status = "pending" →
       (row.assignee = none ∨ row.assignee = some agent ∨
        get_member_role s agent = some "admin" ∨
        get_member_role s agent = some "lead") →
       ∃ t s', claim_task s tid agent now = (.ok t, s') ∧
         t.status = "in_progress" ∧ t.assignee = some agent ∧
         s'.tasks.find? (fun t2 => t2.id == tid) = some t) := by
  refine ⟨?_, ?_, ?_, ?_⟩
  · intro hfind
    simp [claim_task, claim_check, hv, hfind]
  · intro row hfind hst
    simp only [claim_task, claim_check, hv, Bool.not_true, Bool.false_eq_true,
      if_false, hfind]
    simp [hst]
  · intro row a hfind hpend hass hne hadm hlead
    simp only [claim_task, claim_check, hv, Bool.not_true, Bool.false_eq_true,
      if_false, hfind, hass]
    simp [hpend, hne, hadm, hlead]
  · intro row hfind hpend hor
    have hcheck : claim_check s tid agent = .claimable := by
      unfold claim_check
      rw [hfind]
      rcases hor with h | h | h | h
      · simp [hpend, h]
      · simp [hpend, h]
      · cases hass : row.assignee with
        | none => simp [hpend, hass]
        | some a =>
          by_cases ha : a = agent
          · simp [hpend, hass, ha]
          · simp [hpend, hass, ha, h]
      · cases hass : row.assignee with
        | none => simp [hpend, hass]
        | some a =>
          by_cases ha : a = agent
          · simp [hpend, hass, ha]
          · simp [hpend, hass, ha, h]
    have hwrite : (claim_write s tid agent now).2.2
        = some { row with assignee := some agent, status := "in_progress",
                          updated_at := now } := by
      unfold claim_write log_action
      simp only []
      rw [find?_map_ite (fun t => t.id == tid)
            (fun t => { t with assignee := some agent, status := "in_progress",
                               updated_at := now })
            s.tasks (fun a ha => by simpa using ha), hfind]
      rfl
    have hfind2 : ((claim_write s tid agent now).1).tasks.find?
        (fun t2 => t2.id == tid)
        = some { row with assignee := some agent, status := "in_progress",
                          updated_at := now } := by
      unfold claim_write log_action
      simp only []
      rw [find?_map_ite (fun t => t.id == tid)
            (fun t => { t with assignee := some agent, status := "in_progress",
                               updated_at := now })
            s.tasks (fun a ha => by simpa using ha), hfind]
      rfl
    refine ⟨{ row with assignee := some agent, status := "in_progress",
                       updated_at := now },
            (claim_write s tid agent now).1, ?_, rfl, rfl, hfind2⟩
    simp [claim_task, hv, hcheck, hwrite]

/-- Witness for C2: bob successfully claims the pending unassigned task of
`raceState`. -/
theorem C2_claim_task_outcomes_witness :
    ∃ t s', claim_task raceState 1 "bob" 5 = (.ok t, s') ∧
      t.status = "in_progress" ∧ t.assignee = some "bob" ∧
      s'.tasks.find? (fun t2 => t2.id == 1) = some t :=
  (C2_claim_task_outcomes raceState 1 "bob" 5 (by decide)).2.2.2 raceTask
    (by decide) (by decide) (Or.inl (by decide))

/-! ## Claim C3: update_task authorization and its backward-compatibility gap -/

/-- C3: on an existing task, `update_task` with an acting agent that is
neither the task's creator nor its current assignee nor an active admin or
lead returns a structured error and leaves the store unchanged; with no
acting agent supplied it applies the update (status, and result when given)
with no authorization check at all. -/
theorem C3_update_task_auth (s : DBState) (tid : Nat) (status : String)
    (result : Option String) (a : String) (now : Nat)
    (hst : validTaskStatus status = true)
    (hres : (match result with
             | some r => validTaskResult r
             | none => true) = true) :
    (∀ row, s.tasks.find? (fun t => t.id == tid) = some row →
       row.creator ≠ a → row.assignee ≠ some a →
       get_member_role s a ≠ some "admin" → get_member_role s a ≠ some "lead" →
       ∃ msg, update_task s tid status result (some a) now = (.errorDict msg, s)) ∧
    (∀ row, s.tasks.find? (fun t => t.id == tid) = some row →
       ∃ t s', update_task s tid status result none now = (.ok t, s') ∧
         t.status = status ∧
         t.result = (match result with
                     | some r => some r
                     | none => row.result) ∧
         s'.tasks.find? (fun t2 => t2.id == tid) = some t) := by
  constructor
  · intro row hfind hcr has hadm hlead
    cases result with
    | none =>
      simp only [update_task, hst, Bool.not_true, Bool.false_eq_true, if_false,
        hfind]
      simp [hcr, has, hadm, hlead]
    | some r =>
      have hr : validTaskResult r = true := by simpa using hres
      simp only [update_task, hst, hr, Bool.not_true, Bool.false_eq_true,
        if_false, hfind]
      simp [hcr, has, hadm, hlead]
  · intro row hfind
    have hprow : (row.id == tid) = true := by simpa using List.find?_some hfind
    have hpos : 0 < s.tasks.countP (fun t => t.id == tid) :=
      List.countP_pos_iff.mpr ⟨row, List.mem_of_find?_eq_some hfind, hprow⟩
    have hne0 : (s.tasks.countP (fun t => t.id == tid) == 0) = false := by
      simpa using Nat.pos_iff_ne_zero.mp hpos
    cases result with
    | none =>
      have hmap : (s.tasks.map (fun t =>
          if t.id == tid then { t with status := status, updated_at := now }
          else t)).find? (fun t2 => t2.id == tid)
          = some { row with status := status, updated_at := now } := by
        rw [find?_map_ite (fun t2 => t2.id == tid)
              (fun t => { t with status := status, updated_at := now })
              s.tasks (fun a ha => by simpa using ha), hfind]
        rfl
      have hmap2 := hmap
      simp only [beq_iff_eq] at hmap2
      have h1 : (update_task s tid status none none now).1
          = .ok { row with status := status, updated_at := now } := by
        simp [update_task, hst, hfind, hne0, log_action, hmap, hmap2,
          -List.find?_map]
      have h2 : (update_task s tid status none none now).2.tasks.find?
          (fun t2 => t2.id == tid)
          = some { row with status := status, updated_at := now } := by
        simp [update_task, hst, hfind, hne0, log_action, hmap, hmap2,
          -List.find?_map]
      exact ⟨{ row with status := status, updated_at := now },
             (update_task s tid status none none now).2,
             by rw [← h1], rfl, rfl, h2⟩
    | some r =>
      have hr : validTaskResult r = true := by simpa using hres
      have hmap : (s.tasks.map (fun t =>
          if t.id == tid then
            { t with status := status, result := some r, updated_at := now }
          else t)).find? (fun t2 => t2.id == tid)
          = some { row with status := status, result := some r,
                            updated_at := now } := by
        rw [find?_map_ite (fun t2 => t2.id == tid)
              (fun t => { t with status := status, result := some r,
                                 updated_at := now })
              s.tasks (fun a ha => by simpa using ha), hfind]
        rfl
      have hmap2 := hmap
      simp only [beq_iff_eq] at hmap2
      have h1 : (update_task s tid status (some r) none now).1
          = .ok { row with status := status, result := some r,
                           updated_at := now } := by
        simp [update_task, hst, hr, hfind, hne0, log_action, hmap, hmap2,
          -List.find?_map]
      have h2 : (update_task s tid status (some r) none now).2.tasks.find?
          (fun t2 => t2.id == tid)
          = some { row with status := status, result := some r,
                            updated_at := now } := by
        simp [update_task, hst, hr, hfind, hne0, log_action, hmap, hmap2,
          -List.find?_map]
      exact ⟨{ row with status := status, result := some r, updated_at := now },
             (update_task s tid status (some r) none now).2,
             by rw [← h1], rfl, rfl, h2⟩

/-- Witness for C3: with no acting agent supplied, the update of the
pending task in `raceState` to done with a result goes through. -/
theorem C3_update_task_auth_witness :
    ∃ t s', update_task raceState 1 "done" (some "ok") none 7 = (.ok t, s') ∧
      t.status = "done" ∧ t.result = some "ok" ∧
      s'.tasks.find? (fun t2 => t2.id == 1) = some t :=
  (C3_update_task_auth raceState 1 "done" (some "ok") "zed" 7 (by decide)
    (by decide)).2 raceTask (by decide)

/-! ## Claim C4: audit coverage of state-changing calls -/

def dmRow : Message :=
  { id := 1, sender := "bob", recipient := "alice", content := "hi",
    created_at := 1, read := false, archived_at := none }

def inboxState : DBState :=
  { initialState with members := [aliceRow, bobRow], messages := [dmRow],
                      next_message_id := 2 }

/-- C4 counterexample: `heartbeat` refreshes `last_heartbeat` (a store
mutation) and `get_messages` marks a returned direct message read, yet
neither appends any audit-log entry, contradicting the claim that every
state-changing access-layer call audits atomically with its effect. -/
theorem C4_unaudited_mutations :
    ((heartbeat oneMemberState "alice" 7).1 = true ∧
     (heartbeat oneMemberState "alice" 7).2.members ≠ oneMemberState.members ∧
     (heartbeat oneMemberState "alice" 7).2.audit_log = oneMemberState.audit_log) ∧
    ((get_messages inboxState "alice" false false).2.messages ≠ inboxState.messages ∧
     (get_messages inboxState "alice" false false).2.audit_log = inboxState.audit_log) := by
  decide

/-- C4 (amended): every state-changing access-layer operation except
`heartbeat` and `get_messages` appends one audit entry as part of the same
atomic state transition that applies its effect; `heartbeat` and the
read-marking side effect of `get_messages` commit with no audit entry at
all. -/
theorem C4_audit_coverage :
    (∀ s name role caps now v s2,
       register s name role caps now = (.ok v, s2) →
       ∃ e, s2.audit_log = s.audit_log ++ [e] ∧ e.action = "register") ∧
    (∀ s name now, (deregister s name now).1 = true →
       ∃ e, (deregister s name now).2.audit_log = s.audit_log ++ [e] ∧
         e.action = "deregister") ∧
    (∀ s rb sender recipient content now mono v s2 rb2,
       send_message s rb sender recipient content now mono = (.ok v, s2, rb2) →
       ∃ e, s2.audit_log = s.audit_log ++ [e] ∧ e.action = "send_message") ∧
    (∀ s rb sender content now mono v s2 rb2,
       broadcast s rb sender content now mono = (.ok v, s2, rb2) →
       ∃ e, s2.audit_log = s.audit_log ++ [e] ∧ e.action = "broadcast") ∧
    (∀ s mid agent now v s2, delete_message s mid agent now = (.ok v, s2) →
       ∃ e, s2.audit_log = s.audit_log ++ [e] ∧ e.action = "delete_message") ∧
    (∀ s mid agent now v s2, archive_message s mid agent now = (.ok v, s2) →
       ∃ e, s2.audit_log = s.audit_log ++ [e] ∧ e.action = "archive_message") ∧
    (∀ s agent before sender now,
       ∃ e, (clear_inbox s agent before sender now).2.audit_log
           = s.audit_log ++ [e] ∧ e.action = "clear_inbox") ∧
    (∀ s agent before now v s2, purge_messages s agent before now = (.ok v, s2) →
       ∃ e, s2.audit_log = s.audit_log ++ [e] ∧ e.action = "purge_messages") ∧
    (∀ s title creator description assignee priority now v s2,
       create_task s title creator description assignee priority now = (.ok v, s2) →
       ∃ e, s2.audit_log = s.audit_log ++ [e] ∧ e.action = "create_task") ∧
    (∀ s tid agent now v s2, claim_task s tid agent now = (.ok v, s2) →
       ∃ e, s2.audit_log = s.audit_log ++ [e] ∧ e.action = "claim_task") ∧
    (∀ s tid st res agent now v s2,
       update_task s tid st res agent now = (.ok v, s2) →
       ∃ e, s2.audit_log = s.audit_log ++ [e] ∧ e.action = "update_task") ∧
    (∀ s key value set_by now v s2,
       share_context s key value set_by now = (.ok v, s2) →
       ∃ e, s2.audit_log = s.audit_log ++ [e] ∧ e.action = "share_context") ∧
    (∀ s name now, (heartbeat s name now).2.audit_log = s.audit_log) ∧
    (∀ s agent ir ia, (get_messages s agent ir ia).2.audit_log = s.audit_log) := by
  refine ⟨?_, ?_, ?_, ?_, ?_, ?_, ?_, ?_, ?_, ?_, ?_, ?_, ?_, ?_⟩
  · intro s name role caps now v s2 h
    unfold register at h
    try simp only [] at h
    repeat' split at h
    all_goals try simp only [] at h
    repeat' split at h
    all_goals try simp only [] at h
    all_goals first
      | (simp at h; done)
      | (rw [Prod.mk.injEq] at h
         obtain ⟨h1, h2⟩ := h
         subst h2
         exact ⟨_, rfl, rfl⟩)
  · intro s name now hd
    unfold deregister at hd ⊢
    simp only [] at hd ⊢
    rw [if_pos (of_decide_eq_true hd)]
    exact ⟨_, rfl, rfl⟩
  · intro s rb sender recipient content now mono v s2 rb2 h
    unfold send_message at h
    try simp only [] at h
    repeat' split at h
    all_goals try simp only [] at h
    repeat' split at h
    all_goals try simp only [] at h
    all_goals first
      | (simp at h; done)
      | (rw [Prod.mk.injEq, Prod.mk.injEq] at h
         obtain ⟨h1, h2, h3⟩ := h
         subst h2
         exact ⟨_, rfl, rfl⟩)
  · intro s rb sender content now mono v s2 rb2 h
    unfold broadcast at h
    try simp only [] at h
    repeat' split at h
    all_goals try simp only [] at h
    repeat' split at h
    all_goals try simp only [] at h
    all_goals first
      | (simp at h; done)
      | (rw [Prod.mk.injEq, Prod.mk.injEq] at h
         obtain ⟨h1, h2, h3⟩ := h
         subst h2
         exact ⟨_, rfl, rfl⟩)
  · intro s mid agent now v s2 h
    unfold delete_message at h
    try simp only [] at h
    repeat' split at h
    all_goals try simp only [] at h
    repeat' split at h
    all_goals try simp only [] at h
    all_goals first
      | (simp at h; done)
      | (rw [Prod.mk.injEq] at h
         obtain ⟨h1, h2⟩ := h
         subst h2
         exact ⟨_, rfl, rfl⟩)
  · intro s mid agent now v s2 h
    unfold archive_message at h
    try simp only [] at h
    repeat' split at h
    all_goals try simp only [] at h
    repeat' split at h
    all_goals try simp only [] at h
    all_goals first
      | (simp at h; done)
      | (rw [Prod.mk.injEq] at h
         obtain ⟨h1, h2⟩ := h
         subst h2
         exact ⟨_, rfl, rfl⟩)
  · intro s agent before sender now
    unfold clear_inbox
    exact ⟨_, rfl, rfl⟩
  · intro s agent before now v s2 h
    unfold purge_messages at h
    try simp only [] at h
    repeat' split at h
    all_goals try simp only [] at h
    repeat' split at h
    all_goals try simp only [] at h
    all_goals first
      | (simp at h; done)
      | (rw [Prod.mk.injEq] at h
         obtain ⟨h1, h2⟩ := h
         subst h2
         exact ⟨_, rfl, rfl⟩)
  · intro s title creator description assignee priority now v s2 h
    unfold create_task at h
    try simp only [] at h
    repeat' split at h
    all_goals try simp only [] at h
    repeat' split at h
    all_goals try simp only [] at h
    all_goals first
      | (simp at h; done)
      | (rw [Prod.mk.injEq] at h
         obtain ⟨h1, h2⟩ := h
         subst h2
         exact ⟨_, rfl, rfl⟩)
  · intro s tid agent now v s2 h
    unfold claim_task at h
    try simp only [] at h
    repeat' split at h
    all_goals try simp only [] at h
    repeat' split at h
    all_goals try simp only [] at h
    all_goals first
      | (simp at h; done)
      | (rw [Prod.mk.injEq] at h
         obtain ⟨h1, h2⟩ := h
         subst h2
         exact ⟨_, rfl, rfl⟩)
  · intro s tid st res agent now v s2 h
    unfold update_task at h
    try simp only [] at h
    repeat' split at h
    all_goals try simp only [] at h
    repeat' split at h
    all_goals try simp only [] at h
    all_goals first
      | (simp at h; done)
      | (rw [Prod.mk.injEq] at h
         obtain ⟨h1, h2⟩ := h
         subst h2
         exact ⟨_, rfl, rfl⟩)
  · intro s key value set_by now v s2 h
    unfold share_context at h
    try simp only [] at h
    repeat' split at h
    all_goals try simp only [] at h
    repeat' split at h
    all_goals try simp only [] at h
    all_goals first
      | (simp at h; done)
      | (rw [Prod.mk.injEq] at h
         obtain ⟨h1, h2⟩ := h
         subst h2
         exact ⟨_, rfl, rfl⟩)
  · intro s name now
    rfl
  · intro s agent ir ia
    rfl

/-- Witness for C4 (amended) at a concrete input: registering alice appends
one register audit entry in the same transition. -/
theorem C4_audit_coverage_witness :
    ∃ e, (register initialState "alice" "agent" [] 3).2.audit_log
        = initialState.audit_log ++ [e] ∧ e.action = "register" :=
  C4_audit_coverage.1 initialState "alice" "agent" [] 3 _ _ rfl

/-! ## Claim C5: broadcast unread isolation -/

/-- C5: with a single unconsumed broadcast in the store, every agent's
unread count is exactly 1 and every agent's unread fetch returns exactly
that broadcast; after agent A fetches it, only the BroadcastRead marker
(A, id) is recorded, the message rows themselves are unchanged, A's unread
count drops to 0 and every other agent's unread count is still 1. -/
theorem C5_broadcast_unread_isolation (s : DBState) (b : Message) (A : String)
    (hmsgs : s.messages = [b]) (hbrs : s.broadcast_reads = [])
    (hrec : b.recipient = "*") (hread : b.read = false)
    (harch : b.archived_at = none) :
    (∀ C, (unread_count s C).1 = 1) ∧
    (∀ C, (get_messages s C false false).1 = [b]) ∧
    ((get_messages s A false false).2.broadcast_reads
        = [{ agent_name := A, message_id := b.id }]) ∧
    ((get_messages s A false false).2.messages = s.messages) ∧
    ((unread_count (get_messages s A false false).2 A).1 = 0) ∧
    (∀ C, C ≠ A → (unread_count (get_messages s A false false).2 C).1 = 1) := by
  have h3 : (get_messages s A false false).2.broadcast_reads
      = [{ agent_name := A, message_id := b.id }] := by
    simp [get_messages, getMessagesWhere, sortAscCreated, insertAscCreated,
      brInsertIgnore, hmsgs, hbrs, hrec, hread, harch]
  have h4 : (get_messages s A false false).2.messages = s.messages := by
    simp [get_messages, getMessagesWhere, sortAscCreated, insertAscCreated,
      hmsgs, hbrs, hrec, hread, harch]
  refine ⟨?_, ?_, h3, h4, ?_, ?_⟩
  · intro C
    simp [unread_count, unreadCountWhere, hmsgs, hbrs, hrec, hread, harch]
  · intro C
    simp [get_messages, getMessagesWhere, sortAscCreated, insertAscCreated,
      hmsgs, hbrs, hrec, hread, harch]
  · simp [unread_count, unreadCountWhere, h3, h4, hmsgs, hrec, hread, harch]
  · intro C hC
    have hC' : A ≠ C := Ne.symm hC
    simp [unread_count, unreadCountWhere, h3, h4, hmsgs, hrec, hread, harch, hC']

def bcRow : Message :=
  { id := 1, sender := "bob", recipient := "*", content := "hello",
    created_at := 1, read := false, archived_at := none }

def bcState : DBState :=
  { initialState with members := [aliceRow, bobRow], messages := [bcRow],
                      next_message_id := 2 }

/-- Witness for C5 at a concrete store: one broadcast, alice reads it, bob
still has it unread. -/
theorem C5_broadcast_unread_isolation_witness :
    ((unread_count bcState "alice").1 = 1 ∧ (unread_count bcState "bob").1 = 1) ∧
    ((unread_count (get_messages bcState "alice" false false).2 "alice").1 = 0 ∧
     (unread_count (get_messages bcState "alice" false false).2 "bob").1 = 1) := by
  have h := C5_broadcast_unread_isolation bcState bcRow "alice" rfl rfl rfl rfl rfl
  exact ⟨⟨h.1 "alice", h.1 "bob"⟩,
         ⟨h.2.2.2.2.1, h.2.2.2.2.2 "bob" (by decide)⟩⟩

/-! ## Claim C8: unread_count and unread_preview are read-only unread views -/

/-- C8: `unread_count` and `unread_preview` leave the store exactly as it
was (they are single SELECT statements), their WHERE clause coincides
pointwise with the unread-fetch filter of `get_messages`, the returned
count equals the number of rows an unread fetch would return, and the
preview is the newest-first prefix of the same filtered rows projected to
sender, 100-character content prefix and creation time. -/
theorem C8_unread_queries_read_only (s : DBState) (agent : String) (limit : Nat) :
    ((unread_count s agent).2 = s ∧ (unread_preview s agent limit).2 = s) ∧
    (∀ m : Message,
       unreadCountWhere s.broadcast_reads agent m
         = getMessagesWhere s.broadcast_reads agent false false m ∧
       unreadPreviewWhere s.broadcast_reads agent m
         = getMessagesWhere s.broadcast_reads agent false false m) ∧
    (unread_count s agent).1 = ((get_messages s agent false false).1).length ∧
    (unread_preview s agent limit).1
      = ((sortDescCreated (s.messages.filter
            (getMessagesWhere s.broadcast_reads agent false false))).take limit).map
          (fun r => { sender := r.sender, content := r.content.take 100,
                      created_at := r.created_at }) := by
  have hpred : ∀ m : Message,
      unreadCountWhere s.broadcast_reads agent m
        = getMessagesWhere s.broadcast_reads agent false false m := by
    intro m
    simp [unreadCountWhere, getMessagesWhere]
  have hfilter : s.messages.filter (unreadCountWhere s.broadcast_reads agent)
      = s.messages.filter (getMessagesWhere s.broadcast_reads agent false false) :=
    List.filter_congr (fun m _ => hpred m)
  have hfilterP : s.messages.filter (unreadPreviewWhere s.broadcast_reads agent)
      = s.messages.filter (getMessagesWhere s.broadcast_reads agent false false) :=
    List.filter_congr (fun m _ => hpred m)
  refine ⟨⟨rfl, rfl⟩, fun m => ⟨hpred m, hpred m⟩, ?_, ?_⟩
  · show (s.messages.filter (unreadCountWhere s.broadcast_reads agent)).length
        = (sortAscCreated (s.messages.filter
            (getMessagesWhere s.broadcast_reads agent false false))).length
    rw [length_sortAscCreated, hfilter]
  · have hdef : (unread_preview s agent limit).1
        = ((sortDescCreated (s.messages.filter
            (unreadPreviewWhere s.broadcast_reads agent))).take limit).map
          (fun r => ({ sender := r.sender, content := r.content.take 100,
                       created_at := r.created_at } : PreviewRow)) := rfl
    rw [hdef, hfilterP]

/-! ## Claim C9: archiving a wildcard message hides it from every agent -/

/-- C9: any agent may archive a wildcard (broadcast) message; the archive
sets read and archived_at on the shared message row itself, so the row is
excluded from EVERY agent's unread_count filter and from every agent's
default get_messages listing, not only the acting agent's; likewise a
clear_inbox by one agent archives every live broadcast row, hiding each
from every agent's unread view. -/
theorem C9_broadcast_archive_hides_globally (s : DBState) (mid : Nat)
    (agent : String) (now : Nat) :
    (∀ row, s.messages.find? (fun m => m.id == mid) = some row →
       row.recipient = "*" →
       ∃ r s2, archive_message s mid agent now = (.ok r, s2) ∧
         (s2.messages.find? (fun m => m.id == mid)).map
             (fun m => (m.read, m.archived_at)) = some (true, some now) ∧
         (∀ C, ∀ m ∈ s2.messages, m.id = mid →
            unreadCountWhere s2.broadcast_reads C m = false) ∧
         (∀ C, ∀ m ∈ (get_messages s2 C false false).1, m.id ≠ mid)) ∧
    (∀ C, ∀ m ∈ (clear_inbox s agent none none now).2.messages,
       m.recipient = "*" →
       m.archived_at ≠ none ∧
       unreadCountWhere (clear_inbox s agent none none now).2.broadcast_reads C m
         = false) := by
  constructor
  · intro row hfind hrec
    have hbc : (row.recipient == "*") = true := by simp [hrec]
    have h1 : (archive_message s mid agent now).1
        = .ok { id := row.id, sender := row.sender, recipient := row.recipient,
                archived_at := now, read := true } := by
      simp [archive_message, hfind, hbc]
    have hmsgs2 : (archive_message s mid agent now).2.messages
        = s.messages.map (fun m =>
            if m.id == mid then { m with archived_at := some now, read := true }
            else m) := by
      simp [archive_message, hfind, hbc, log_action]
    have hkey : ∀ m ∈ (archive_message s mid agent now).2.messages,
        m.id = mid → m.archived_at = some now ∧ m.read = true := by
      intro m hm hmid
      rw [hmsgs2] at hm
      obtain ⟨orig, horig, rfl⟩ := List.mem_map.mp hm
      by_cases ho : orig.id = mid
      · simp [ho]
      · rw [if_neg (by simpa using ho)] at hmid ⊢
        exact absurd hmid ho
    refine ⟨_, (archive_message s mid agent now).2, by rw [← h1], ?_, ?_, ?_⟩
    · rw [hmsgs2,
          find?_map_ite (fun m => m.id == mid)
            (fun m => { m with archived_at := some now, read := true })
            s.messages (fun a ha => by simpa using ha), hfind]
      rfl
    · intro C m hm hmid
      have hk := hkey m hm hmid
      simp [unreadCountWhere, hk.1]
    · intro C m hm heq
      have hm2 : m ∈ (archive_message s mid agent now).2.messages.filter
          (getMessagesWhere (archive_message s mid agent now).2.broadcast_reads
            C false false) := mem_sortAscCreated.mp hm
      obtain ⟨hmem, hpred⟩ := List.mem_filter.mp hm2
      have hk := hkey m hmem heq
      simp [getMessagesWhere, hk.1, hk.2] at hpred
  · intro C m hm hrec
    have hmsgs2 : (clear_inbox s agent none none now).2.messages
        = s.messages.map (fun m =>
            if clearInboxWhere agent none none m then
              { m with archived_at := some now, read := true }
            else m) := by
      simp [clear_inbox, log_action]
    have hbrs2 : (clear_inbox s agent none none now).2.broadcast_reads
        = s.broadcast_reads := by
      simp [clear_inbox, log_action]
    rw [hmsgs2] at hm
    obtain ⟨orig, horig, rfl⟩ := List.mem_map.mp hm
    by_cases hcw : clearInboxWhere agent none none orig = true
    · rw [if_pos hcw] at hrec ⊢
      refine ⟨by simp, ?_⟩
      simp [unreadCountWhere]
    · rw [if_neg hcw] at hrec ⊢
      have horigarch : ¬ orig.archived_at = none := by
        intro hno
        apply hcw
        simp [clearInboxWhere, hrec, hno]
      refine ⟨horigarch, ?_⟩
      simp [unreadCountWhere, horigarch]

/-- Witness for C9: alice archives the shared broadcast of `bcState`; the
row is read+archived and excluded from both alice's and bob's unread
filter. -/
theorem C9_broadcast_archive_hides_globally_witness :
    ∃ r s2, archive_message bcState 1 "alice" 9 = (.ok r, s2) ∧
      (s2.messages.find? (fun m => m.id == 1)).map
          (fun m => (m.read, m.archived_at)) = some (true, some 9) ∧
      (∀ C, ∀ m ∈ s2.messages, m.id = 1 →
         unreadCountWhere s2.broadcast_reads C m = false) ∧
      (∀ C, ∀ m ∈ (get_messages s2 C false false).1, m.id ≠ 1) :=
  (C9_broadcast_archive_hides_globally bcState 1 "alice" 9).1 bcRow
    (by decide) (by decide)

/-! ## Claim C10: privileged purge removes old messages and their markers -/

/-- C10: for an acting agent whose active member row holds the admin or
lead role, purge_messages hard-deletes every message older than the cutoff
regardless of its sender or recipient, reports their count, and removes
every BroadcastRead row referencing them, so afterwards no BroadcastRead
row references a purged message id. -/
theorem C10_purge_scope (s : DBState) (agent : String) (before now : Nat)
    (hrole : get_member_role s agent = some "admin" ∨
             get_member_role s agent = some "lead") :
    ∃ n s2, purge_messages s agent before now = (.ok n, s2) ∧
      n = s.messages.countP (fun m => decide (m.created_at < before)) ∧
      s2.messages = s.messages.filter (fun m => !decide (m.created_at < before)) ∧
      (∀ m ∈ s.messages, m.created_at < before → m ∉ s2.messages) ∧
      (∀ br ∈ s2.broadcast_reads, ∀ m ∈ s.messages, m.created_at < before →
         br.message_id ≠ m.id) := by
  have hcond : (!(get_member_role s agent == some "admin" ||
      get_member_role s agent == some "lead")) = false := by
    rcases hrole with h | h <;> simp [h]
  have h1 : (purge_messages s agent before now).1
      = .ok (s.messages.countP (fun m => decide (m.created_at < before))) := by
    simp [purge_messages, hcond]
  have hmsgs : (purge_messages s agent before now).2.messages
      = s.messages.filter (fun m => !decide (m.created_at < before)) := by
    simp [purge_messages, hcond, log_action]
  have hbrs : (purge_messages s agent before now).2.broadcast_reads
      = s.broadcast_reads.filter (fun br =>
          !(s.messages.any (fun m =>
            m.id == br.message_id && decide (m.created_at < before)))) := by
    simp [purge_messages, hcond, log_action]
  refine ⟨_, (purge_messages s agent before now).2, by rw [← h1], rfl, hmsgs,
         ?_, ?_⟩
  · intro m hm hlt hmem
    rw [hmsgs] at hmem
    have h2 := (List.mem_filter.mp hmem).2
    simp [hlt] at h2
  · intro br hbr m hm hlt heq
    rw [hbrs] at hbr
    have h2 := (List.mem_filter.mp hbr).2
    simp only [Bool.not_eq_true', List.any_eq_false] at h2
    have h3 := h2 m hm
    simp [heq, hlt] at h3

def purgeOld : Message :=
  { id := 1, sender := "bob", recipient := "alice", content := "old",
    created_at := 1, read := true, archived_at := none }

def purgeNew : Message :=
  { id := 2, sender := "bob", recipient := "alice", content := "new",
    created_at := 5, read := false, archived_at := none }

def purgeState : DBState :=
  { initialState with members := [adminRow],
                      messages := [purgeOld, purgeNew],
                      broadcast_reads := [{ agent_name := "alice", message_id := 1 }],
                      next_message_id := 3 }

/-- Witness for C10: the admin root purges messages older than 3; message 1
and its BroadcastRead row are gone, message 2 remains. -/
theorem C10_purge_scope_witness :
    ∃ n s2, purge_messages purgeState "root" 3 9 = (.ok n, s2) ∧
      n = purgeState.messages.countP (fun m => decide (m.created_at < 3)) ∧
      s2.messages = purgeState.messages.filter
        (fun m => !decide (m.created_at < 3)) ∧
      (∀ m ∈ purgeState.messages, m.created_at < 3 → m ∉ s2.messages) ∧
      (∀ br ∈ s2.broadcast_reads, ∀ m ∈ purgeState.messages,
         m.created_at < 3 → br.message_id ≠ m.id) :=
  C10_purge_scope purgeState "root" 3 9 (Or.inl (by decide))

end TeamTable
